import Mathlib

/-!
Verification of the distributed Streamable-HTTP MCP transport and the
JSON-RPC protocol engine of this repository, by shallow embedding of the
TypeScript source into Lean.

Sources embedded:
* `packages/transports/server/distributed-streamable-http/src/topics.ts`
* `packages/transports/server/distributed-streamable-http/src/transport.ts`
* `packages/sdk/src/protocol/assertions.ts`
* `packages/sdk/src/protocol/connection.ts`

JSON values are modelled with integer numerics (no claim under study
depends on fractional numbers), and JavaScript `Map`s are modelled as
association lists with the `Map.set` overwrite-in-place semantics.
-/

namespace MCP

-- =============================================================================
-- JSON value model
-- =============================================================================

/-- Model of a parsed JSON value (the `unknown` result of `JSON.parse`).
Object fields are kept in insertion order; `JSON.parse` produces unique keys. -/
inductive Json where
  | null
  | bool (b : Bool)
  | num (n : Int)
  | str (s : String)
  | arr (elems : List Json)
  | obj (fields : List (String × Json))

mutual

/-- Structural boolean equality on JSON values. -/
def beqJson : Json → Json → Bool
  | .null, .null => true
  | .bool a, .bool b => a == b
  | .num a, .num b => a == b
  | .str a, .str b => a == b
  | .arr a, .arr b => beqJsonList a b
  | .obj a, .obj b => beqJsonFields a b
  | _, _ => false

/-- Structural boolean equality on JSON arrays. -/
def beqJsonList : List Json → List Json → Bool
  | [], [] => true
  | x :: xs, y :: ys => beqJson x y && beqJsonList xs ys
  | _, _ => false

/-- Structural boolean equality on JSON object field lists. -/
def beqJsonFields : List (String × Json) → List (String × Json) → Bool
  | [], [] => true
  | (k, v) :: xs, (l, w) :: ys => k == l && beqJson v w && beqJsonFields xs ys
  | _, _ => false

end

mutual

/-- Soundness and completeness of `beqJson`. -/
theorem beqJson_iff : ∀ a b : Json, beqJson a b = true ↔ a = b
  | .null, b => by cases b <;> simp [beqJson]
  | .bool x, b => by cases b <;> simp [beqJson]
  | .num x, b => by cases b <;> simp [beqJson]
  | .str x, b => by cases b <;> simp [beqJson]
  | .arr xs, b => by
      cases b <;> simp [beqJson]
      exact beqJsonList_iff xs _
  | .obj xs, b => by
      cases b <;> simp [beqJson]
      exact beqJsonFields_iff xs _

/-- Soundness and completeness of `beqJsonList`. -/
theorem beqJsonList_iff : ∀ a b : List Json, beqJsonList a b = true ↔ a = b
  | [], b => by cases b <;> simp [beqJsonList]
  | x :: xs, b => by
      cases b with
      | nil => simp [beqJsonList]
      | cons y ys => simp [beqJsonList, beqJson_iff x y, beqJsonList_iff xs ys]

/-- Soundness and completeness of `beqJsonFields`. -/
theorem beqJsonFields_iff : ∀ a b : List (String × Json), beqJsonFields a b = true ↔ a = b
  | [], b => by cases b <;> simp [beqJsonFields]
  | (k, v) :: xs, b => by
      cases b with
      | nil => simp [beqJsonFields]
      | cons y ys =>
          obtain ⟨l, w⟩ := y
          simp [beqJsonFields, beqJson_iff v w, beqJsonFields_iff xs ys, Prod.ext_iff]

end

instance : DecidableEq Json := fun a b => decidable_of_iff (beqJson a b = true) (beqJson_iff a b)

/-- Property access `value[key]` on a JSON value, as JavaScript resolves it:
only objects yield fields; arrays, strings, numbers, booleans and null give
`undefined` (modelled as `none`) for a non-index string key. -/
def getField : Json → String → Option Json
  | .obj fields, key => fields.lookup key
  | _, _ => none

-- =============================================================================
-- Type guards (packages/sdk/src/protocol/assertions.ts)
-- =============================================================================

/-- Embeds `isObject` (assertions.ts:26): non-null object, not an array. -/
def isObject : Json → Bool
  | .obj _ => true
  | _ => false

/-- Embeds `hasJSONRPCVersion` (assertions.ts:57): object with field
`jsonrpc` equal to the string `"2.0"`. -/
def hasJSONRPCVersion (v : Json) : Bool :=
  isObject v && (getField v "jsonrpc" == some (.str "2.0"))

/-- String-or-number test used for JSON-RPC ids. -/
def isStringOrNumber : Option Json → Bool
  | some (.str _) => true
  | some (.num _) => true
  | _ => false

/-- Params shape test: `params`, if present, must be object or array
(assertions.ts:78). -/
def paramsShapeOk (v : Json) : Bool :=
  match getField v "params" with
  | none => true
  | some (.obj _) => true
  | some (.arr _) => true
  | some _ => false

/-- Embeds `isJSONRPCRequest` (assertions.ts:64): jsonrpc version, an `id`
that is a string or number, a string `method`, and well-shaped `params`. -/
def isJSONRPCRequest (v : Json) : Bool :=
  hasJSONRPCVersion v &&
  isStringOrNumber (getField v "id") &&
  (match getField v "method" with | some (.str _) => true | _ => false) &&
  paramsShapeOk v

/-- Embeds `isJSONRPCNotification` (assertions.ts:88): jsonrpc version, no
`id` field, a string `method`, and well-shaped `params`. -/
def isJSONRPCNotification (v : Json) : Bool :=
  hasJSONRPCVersion v &&
  (getField v "id" == none) &&
  (match getField v "method" with | some (.str _) => true | _ => false) &&
  paramsShapeOk v

/-- Embeds `isJSONRPCResponse` (assertions.ts:109): jsonrpc version, `id`
string or number, a `result` field and no `error` field. -/
def isJSONRPCResponse (v : Json) : Bool :=
  hasJSONRPCVersion v &&
  (getField v "result").isSome &&
  (getField v "error" == none) &&
  isStringOrNumber (getField v "id")

/-- Embeds `isJSONRPCError` (assertions.ts:126): jsonrpc version, `id`
string, number or null, and an `error` object with numeric `code` and
string `message`. -/
def isJSONRPCError (v : Json) : Bool :=
  hasJSONRPCVersion v &&
  (match getField v "id" with
   | some .null => true | some (.str _) => true | some (.num _) => true | _ => false) &&
  (match getField v "error" with
   | some e => isObject e &&
       (match getField e "code" with | some (.num _) => true | _ => false) &&
       (match getField e "message" with | some (.str _) => true | _ => false)
   | none => false)

-- =============================================================================
-- Topic scheme (packages/transports/server/distributed-streamable-http/src/topics.ts)
-- =============================================================================

/-- Parameters for request-scoped topics (topics.ts:65). -/
structure RequestScopeParams where
  sessionId : String
  requestId : String
deriving DecidableEq

/-- Parameters for session-scoped topics (topics.ts:76). -/
structure SessionScopeParams where
  sessionId : String
deriving DecidableEq

/-- Embeds `createRequestScopedTopic` (topics.ts:88): the subject string
`mcp.{sessionId}.{requestId}.{suffix}`. -/
def createRequestScopedTopicSubject (suffix : String) (p : RequestScopeParams) : String :=
  "mcp." ++ p.sessionId ++ "." ++ p.requestId ++ "." ++ suffix

/-- Embeds `createSessionScopedTopic` (topics.ts:98): the subject string
`mcp.{sessionId}.bg.{suffix}`. -/
def createSessionScopedTopicSubject (suffix : String) (p : SessionScopeParams) : String :=
  "mcp." ++ p.sessionId ++ ".bg." ++ suffix

/-- Subject of the `RequestInbound` topic (topics.ts:136). -/
def RequestInboundSubject : RequestScopeParams → String :=
  createRequestScopedTopicSubject "inbound"

/-- Subject of the `RequestOutbound` topic (topics.ts:169). -/
def RequestOutboundSubject : RequestScopeParams → String :=
  createRequestScopedTopicSubject "outbound"

/-- Subject of the `BackgroundOutbound` topic (topics.ts:214). -/
def BackgroundOutboundSubject : SessionScopeParams → String :=
  createSessionScopedTopicSubject "outbound"

/-- Subject of the `BackgroundInbound` topic (topics.ts:250). -/
def BackgroundInboundSubject : SessionScopeParams → String :=
  createSessionScopedTopicSubject "inbound"

-- =============================================================================
-- Transport constants (transport.ts:80-86)
-- =============================================================================

/-- Embeds `DEFAULT_ENDPOINT` (transport.ts:80). -/
def DEFAULT_ENDPOINT : String := "/"

/-- Embeds `DEFAULT_RESPONSE_TIMEOUT_MS` (transport.ts:81). -/
def DEFAULT_RESPONSE_TIMEOUT_MS : Nat := 30000

/-- Embeds `STREAMING_METHODS` (transport.ts:86). -/
def STREAMING_METHODS : List String := ["tools/call", "sampling/createMessage", "prompts/get"]

/-- Modelled from the spec: the `INTERNAL_ERROR` JSON-RPC code imported by
transport.ts and connection.ts from the SDK schema module, which is not under
`src/`; spec section 6.2 fixes it to −32603 ("Internal error"). -/
def INTERNAL_ERROR : Int := -32603

/-- Modelled from the spec: the `PARSE_ERROR` JSON-RPC code imported by
transport.ts from the SDK schema module, which is not under `src/`; spec
section 6.2 fixes it to −32700 ("Parse error"). -/
def PARSE_ERROR : Int := -32700

/-- Response mode returned by a response-mode strategy. -/
inductive ResponseMode where
  | json
  | sse
deriving DecidableEq

/-- Method of a message, when its `method` field is a string. -/
def msgMethod (msg : Json) : Option String :=
  match getField msg "method" with
  | some (.str s) => some s
  | _ => none

/-- Progress-token presence as the default strategy reads it
(transport.ts:160-163): `params?.["_meta"]?.["progressToken"] !== undefined`. -/
def hasProgressToken (msg : Json) : Bool :=
  match getField msg "params" with
  | some p =>
      match getField p "_meta" with
      | some meta => (getField meta "progressToken").isSome
      | none => false
  | none => false

/-- Streaming test the default strategy applies to one request
(transport.ts:156-164): method in `STREAMING_METHODS`, or
`params._meta.progressToken` not `undefined`. -/
def requestWantsStreaming (msg : Json) : Bool :=
  (match msgMethod msg with
   | some m => STREAMING_METHODS.contains m
   | none => false) || hasProgressToken msg

/-- Embeds `defaultResponseModeStrategy` (transport.ts:152-168): scan the
messages in order; the first JSON-RPC request that wants streaming makes the
mode `sse`, otherwise the mode is `json`. -/
def defaultResponseModeStrategy : List Json → ResponseMode
  | [] => .json
  | msg :: rest =>
      if isJSONRPCRequest msg && requestWantsStreaming msg then .sse
      else defaultResponseModeStrategy rest

-- =============================================================================
-- Transport outbound routing (transport.ts:273-296, `send`)
-- =============================================================================

/-- Send options as the SDK `TransportSendOptions` declares them
(sdk transport.ts:21): both fields optional strings. -/
structure TransportSendOptions where
  sessionId : Option String := none
  requestId : Option String := none
deriving DecidableEq

/-- Outcome of `DistributedStreamableHttpServerTransport.send`: either the
thrown configuration error, or a broker publish on a subject. -/
inductive SendResult where
  | thrown (message : String)
  | published (subject : String) (msg : Json)
deriving DecidableEq

/-- Embeds `send` (transport.ts:273-296). JavaScript truthiness is kept: a
missing or empty `sessionId` throws, and a missing or empty `requestId`
selects the session-scoped branch. -/
def transportSend (message : Json) (options : Option TransportSendOptions) : SendResult :=
  match options.bind (·.sessionId) with
  | none => .thrown "Cannot send message: Missing sessionId in options"
  | some sid =>
      if sid = "" then .thrown "Cannot send message: Missing sessionId in options"
      else
        let requestId : Option String :=
          match options.bind (·.requestId) with
          | some r => if r = "" then none else some r
          | none => none
        match requestId with
        | some rid => .published (RequestOutboundSubject ⟨sid, rid⟩) message
        | none =>
            if isJSONRPCRequest message then
              .published (BackgroundInboundSubject ⟨sid⟩) message
            else
              .published (BackgroundOutboundSubject ⟨sid⟩) message

-- =============================================================================
-- Endpoint resolution and HTTP routing (transport.ts:209, 326-381)
-- =============================================================================

/-- Embeds the endpoint resolution of the constructor (transport.ts:209):
`options.httpServer.endpoint ?? DEFAULT_ENDPOINT`. -/
def resolveEndpoint (endpointOption : Option String) : String :=
  endpointOption.getD DEFAULT_ENDPOINT

/-- Routing decision of `handleRequest` (transport.ts:326-381), after the
middleware chain has let the request through. -/
inductive RouteResult where
  | health (status : Nat)
  | readiness (status : Nat)
  | notFound (status : Nat)
  | mcpPost
  | mcpGet
  | mcpDelete
  | optionsNoContent (status : Nat)
  | methodNotAllowed (status : Nat) (allow : String)
deriving DecidableEq

/-- Embeds the path/method dispatch of `handleRequest` (transport.ts:331-380). -/
def routeRequest (endpoint : String) (listening : Bool) (pathname httpMethod : String) :
    RouteResult :=
  if pathname = "/health" then .health 200
  else if pathname = "/readiness" then .readiness (if listening then 200 else 503)
  else if pathname ≠ endpoint then .notFound 404
  else
    match httpMethod with
    | "POST" => .mcpPost
    | "GET" => .mcpGet
    | "DELETE" => .mcpDelete
    | "OPTIONS" => .optionsNoContent 204
    | _ => .methodNotAllowed 405 "GET, POST, DELETE, OPTIONS"

-- =============================================================================
-- JavaScript Map model (association list with `Map.set` semantics)
-- =============================================================================

/-- Model of `Map.set`: update the value in place when the key exists
(keeping its position), otherwise append the new entry. -/
def alSet {α : Type} : List (String × α) → String → α → List (String × α)
  | [], k, v => [(k, v)]
  | (k', v') :: rest, k, v =>
      if k' = k then (k', v) :: rest else (k', v') :: alSet rest k v

/-- Model of `Map.delete`: remove the entry with the key (keys are unique). -/
def alErase {α : Type} : List (String × α) → String → List (String × α)
  | [], _ => []
  | (k', v') :: rest, k =>
      if k' = k then rest else (k', v') :: alErase rest k

/-- Model of `Map.get`. -/
def alGet {α : Type} : List (String × α) → String → Option α
  | [], _ => none
  | (k', v') :: rest, k => if k' = k then some v' else alGet rest k

-- =============================================================================
-- JSON-RPC request ids
-- =============================================================================

/-- A JSON-RPC id as the guards admit it for requests: a string or a number. -/
inductive RId where
  | num (n : Int)
  | str (s : String)
deriving DecidableEq

/-- JavaScript `String(id)` on a request id. -/
def RId.toStringJS : RId → String
  | .num n => toString n
  | .str s => s

/-- Reads the id of a message as an `RId`; guarded requests always have a
string or number id, other shapes fall back to the empty string. -/
def jsonToRId : Json → RId
  | .num n => .num n
  | .str s => .str s
  | _ => .str ""

/-- An `RId` back as a JSON value. -/
def ridToJson : RId → Json
  | .num n => .num n
  | .str s => .str s

/-- The id of a request message. -/
def reqId (msg : Json) : RId := jsonToRId ((getField msg "id").getD .null)

-- =============================================================================
-- JSON response mode (transport.ts:525-621, `handleJsonResponse`)
-- =============================================================================

/-- Terminal payload test of the subscription loops (transport.ts:568, 676):
a JSON-RPC response or error. -/
def isTerminalPayload (d : Json) : Bool := isJSONRPCResponse d || isJSONRPCError d

/-- First response-or-error payload delivered on a correlation subscription:
the subscription loop acks and skips every other payload. -/
def firstTerminal (delivered : List Json) : Option Json :=
  delivered.find? isTerminalPayload

/-- The timeout error `handleJsonResponse` materializes for a request still
pending at the deadline (transport.ts:587-593). Request ids are strings or
numbers by the guard, so `originalId ?? null` is `originalId`. -/
def mkTimeoutError (originalId : RId) : Json :=
  .obj [("jsonrpc", .str "2.0"), ("id", ridToJson originalId),
        ("error", .obj [("code", .num INTERNAL_ERROR), ("message", .str "Request timeout")])]

/-- The fallback body of a non-batch POST with no collected response
(transport.ts:611-619). -/
def noResponseBody : Json :=
  .obj [("jsonrpc", .str "2.0"), ("id", .null),
        ("error", .obj [("code", .num INTERNAL_ERROR), ("message", .str "No response")])]

/-- Result of the JSON response mode: HTTP status, content type, the
collected `responses` array and the serialized body. -/
structure JsonModeResult where
  status : Nat
  contentType : String
  responses : List Json
  body : Json
deriving DecidableEq

/-- The `pendingRequestIds` map of `handleJsonResponse` as first built
(transport.ts:535-539): a JavaScript `Map` keyed by `String(request.id)`, so
requests whose ids stringify equally share one entry. -/
def jsonPending0 (requests : List Json) : List (String × RId) :=
  requests.foldl (fun m r => alSet m (reqId r).toStringJS (reqId r)) []

/-- The terminal payload a request's correlation subscription yields before
the deadline, if any (transport.ts:563-576). -/
def jsonTermOf (delivered : String → List Json) (r : Json) : Option Json :=
  firstTerminal (delivered (reqId r).toStringJS)

/-- The `pendingRequestIds` keys deleted before the deadline
(transport.ts:570): one per request whose subscription yielded a terminal
payload. -/
def jsonDoneKeys (requests : List Json) (delivered : String → List Json) : List String :=
  (requests.filter (fun r => (jsonTermOf delivered r).isSome)).map
    (fun r => (reqId r).toStringJS)

/-- The `responses` array of `handleJsonResponse` (transport.ts:534-594):
the terminal payloads collected before the deadline and, upon timeout, a
timeout error per entry left in `pendingRequestIds`. The order is
normalized to request order; the source pushes in arrival order and neither
the spec nor the claims constrain it. -/
def jsonResponses (requests : List Json) (delivered : String → List Json) : List Json :=
  let collected := requests.filterMap (jsonTermOf delivered)
  if requests.all (fun r => (jsonTermOf delivered r).isSome) then collected
  else
    collected ++
      ((jsonDoneKeys requests delivered).foldl alErase (jsonPending0 requests)).map
        (fun kv => mkTimeoutError kv.2)

/-- Embeds `handleJsonResponse` (transport.ts:525-621). `delivered` maps a
stringified request id to the payloads the broker delivers on
`RequestOutbound(sessionId, requestId)` before the response deadline; a
request is still pending at the deadline when no terminal payload is among
them. -/
def jsonModeResult (messages : List Json) (isBatch : Bool)
    (delivered : String → List Json) : JsonModeResult :=
  let responses := jsonResponses (messages.filter isJSONRPCRequest) delivered
  { status := 200
    contentType := "application/json"
    responses := responses
    body := if isBatch then .arr responses else responses.headD noResponseBody }

-- =============================================================================
-- POST handling (transport.ts:387-437, `handlePost`)
-- =============================================================================

/-- JavaScript `String.prototype.includes` as a substring test. -/
def strIncludes (s sub : String) : Bool := decide (sub.data <:+: s.data)

/-- The message list `parseRequestBody` extracts from a decoded body
(transport.ts:885-886): an array is a batch of its elements, any other JSON
value is a single-message batch. -/
def messagesOfBody : Json → List Json
  | .arr xs => xs
  | v => [v]

/-- Object-with-`method`-field test, used to characterize values the
transport could possibly classify as requests. -/
def isObjWithMethod (v : Json) : Bool :=
  isObject v && (getField v "method").isSome

/-- Outcome of a POST, after session resolution succeeded with `sessionId`
(the claims quantify over the session). `sseMode` marks that the SSE
streaming path was taken; its event stream is not modelled further. -/
inductive PostOutcome where
  | notAcceptable (status : Nat)
  | parseError (status : Nat) (body : Json)
  | notificationsOnly (status : Nat) (published : List (String × Json))
  | jsonMode (result : JsonModeResult)
  | sseMode (status : Nat)
deriving DecidableEq

/-- HTTP status of a POST outcome. -/
def PostOutcome.status : PostOutcome → Nat
  | .notAcceptable s => s
  | .parseError s _ => s
  | .notificationsOnly s _ => s
  | .jsonMode r => r.status
  | .sseMode s => s

/-- Embeds `handlePost` (transport.ts:387-437) under the default response
mode strategy. `body` is the JSON-decoded request body, `none` when the body
is not valid JSON (transport.ts:875-908 `parseRequestBody`: a JSON array is
a batch of its elements, any other JSON value a single-message batch, with
no JSON-RPC shape validation). -/
def handlePost (accept : String) (sessionId : String) (body : Option Json)
    (delivered : String → List Json) : PostOutcome :=
  let acceptsJson := strIncludes accept "application/json" || strIncludes accept "*/*"
  let acceptsSse := strIncludes accept "text/event-stream" || strIncludes accept "*/*"
  if !acceptsJson && !acceptsSse then .notAcceptable 406
  else
    match body with
    | none =>
        .parseError 400 (.obj [("jsonrpc", .str "2.0"), ("id", .null),
          ("error", .obj [("code", .num PARSE_ERROR), ("message", .str "Parse error")])])
    | some parsed =>
        let isBatch := match parsed with | .arr _ => true | _ => false
        let messages := messagesOfBody parsed
        let requests := messages.filter isJSONRPCRequest
        if requests.isEmpty then
          .notificationsOnly 202
            (messages.map (fun m => (BackgroundOutboundSubject ⟨sessionId⟩, m)))
        else
          let mode := defaultResponseModeStrategy messages
          if mode = .sse && acceptsSse then .sseMode 200
          else if acceptsJson then .jsonMode (jsonModeResult messages isBatch delivered)
          else .notAcceptable 406

-- =============================================================================
-- Protocol engine: correlation keys (connection.ts:109-128)
-- =============================================================================

/-- JavaScript template-literal rendering of a possibly-undefined string:
`undefined` interpolates as the text "undefined". -/
def optToTemplate : Option String → String
  | some s => s
  | none => "undefined"

/-- Embeds `mapRequestKey` (connection.ts:115-116):
`{connectionId}:{sessionId}:{requestId}`. -/
def mapRequestKey (connectionId : String) (sessionId : Option String) (requestId : RId) :
    String :=
  connectionId ++ ":" ++ optToTemplate sessionId ++ ":" ++ requestId.toStringJS

/-- Embeds `mapProgressKey` (connection.ts:112-113):
`{connectionId}:{sessionId}:{progressToken}`. -/
def mapProgressKey (connectionId : String) (sessionId : Option String) (progressToken : RId) :
    String :=
  connectionId ++ ":" ++ optToTemplate sessionId ++ ":" ++ progressToken.toStringJS

-- =============================================================================
-- Protocol engine: pending-request and progress-index state (connection.ts)
-- =============================================================================

/-- JavaScript truthiness of a string-or-number value: `0` and `""` are falsy. -/
def RId.truthyJS : RId → Bool
  | .num n => n != 0
  | .str s => s != ""

/-- Correlation state of the engine: `pendingRequests` (keyed by request key,
each record abstracted to the request id it carries) and `progressTokenIndex`
(progress key to request key), as in connection.ts:254-266. -/
structure ProtocolState where
  pendingRequests : List (String × RId)
  progressTokenIndex : List (String × String)
deriving DecidableEq

/-- Embeds the pending-request registration of `send`
(connection.ts:536-547): store the pending record under the request key;
when `options.onProgress` is set and `params._meta.progressToken` is truthy,
index the progress key to the request key. -/
def registerPendingRequest (st : ProtocolState) (connectionId : String)
    (sessionId : Option String) (requestId : RId) (hasOnProgress : Bool)
    (progressToken : Option RId) : ProtocolState :=
  let key := mapRequestKey connectionId sessionId requestId
  let st1 := { st with pendingRequests := alSet st.pendingRequests key requestId }
  if hasOnProgress then
    match progressToken with
    | some tok =>
        if tok.truthyJS then
          let pk := mapProgressKey connectionId sessionId tok
          { st1 with progressTokenIndex := alSet st1.progressTokenIndex pk key }
        else st1
    | none => st1
  else st1

/-- Embeds `clearRequest` (connection.ts:837-846): when the request key is
pending, clear its timeout, delete the pending entry, and delete from
`progressTokenIndex` — by the request key, exactly as the source does. -/
def clearRequest (st : ProtocolState) (requestKey : String) : ProtocolState :=
  match alGet st.pendingRequests requestKey with
  | none => st
  | some _ =>
      { pendingRequests := alErase st.pendingRequests requestKey
        progressTokenIndex := alErase st.progressTokenIndex requestKey }

/-- Outcome of the external-abort listener: the state after cleanup and the
rejection (error code and message) handed to the pending future, when one
was pending. -/
structure AbortResult where
  state : ProtocolState
  rejection : Option (Int × String)
deriving DecidableEq

/-- Embeds the `options.signal` abort listener of `send`
(connection.ts:491-500): when the request key is pending, run `clearRequest`
and reject the future with `InternalError("Request aborted by external
signal")` (code `INTERNAL_ERROR`, errors.ts:135-140). -/
def onExternalAbort (st : ProtocolState) (requestKey : String) : AbortResult :=
  match alGet st.pendingRequests requestKey with
  | some _ =>
      { state := clearRequest st requestKey
        rejection := some (INTERNAL_ERROR, "Request aborted by external signal") }
  | none => { state := st, rejection := none }

-- =============================================================================
-- Protocol engine: incoming request processing (connection.ts:605-666, 809-835)
-- =============================================================================

/-- Result of the user handler invoked by `processRequest`: a result, or a
thrown error already normalized to a protocol error (code and message),
connection.ts:642-644. -/
inductive HandlerOutcome where
  | success (result : Json)
  | failure (code : Int) (message : String)
deriving DecidableEq

/-- A message emitted through `connection.transport.send` with its routing
options (connection.ts:637-640, 651-654). -/
structure Emitted where
  message : Json
  sessionId : Option String
  requestId : String
deriving DecidableEq

/-- The JSON-RPC success envelope of `processRequest` (connection.ts:631-635). -/
def mkSuccessEnvelope (requestId : RId) (result : Json) : Json :=
  .obj [("jsonrpc", .str "2.0"), ("id", ridToJson requestId), ("result", result)]

/-- The JSON-RPC error envelope of `processRequest` (connection.ts:646-650). -/
def mkErrorEnvelope (requestId : RId) (code : Int) (message : String) : Json :=
  .obj [("jsonrpc", .str "2.0"), ("id", ridToJson requestId),
        ("error", .obj [("code", .num code), ("message", .str message)])]

/-- Embeds one `processRequest` execution (connection.ts:605-666) with an
optional interleaved `notifications/cancelled` for the same request id
(connection.ts:809-835, `handleCancellation`). The incoming-request table
maps request keys to the aborted flag of their `AbortController`. Steps:
register a fresh controller; if the cancellation arrives before the handler
settles, it finds the entry, trips the controller and deletes the entry;
at completion the envelope is emitted only when the controller has not been
tripped, and the `finally` block deletes the entry. Returns the emitted
messages and the final table. -/
def processRequestRun (connectionId : String) (sessionId : Option String) (requestId : RId)
    (cancelledBeforeCompletion : Bool) (outcome : HandlerOutcome)
    (table : List (String × Bool)) : List Emitted × List (String × Bool) :=
  let key := mapRequestKey connectionId sessionId requestId
  let table1 := alSet table key false
  let aborted := cancelledBeforeCompletion
  let table2 := if cancelledBeforeCompletion then alErase table1 key else table1
  let sent : List Emitted :=
    if aborted then []
    else
      match outcome with
      | .success result => [⟨mkSuccessEnvelope requestId result, sessionId, requestId.toStringJS⟩]
      | .failure code msg => [⟨mkErrorEnvelope requestId code msg, sessionId, requestId.toStringJS⟩]
  (sent, alErase table2 key)

-- =============================================================================
-- Protocol engine: handler registration (connection.ts:274-290)
-- =============================================================================

/-- Embeds `registerHandler` (connection.ts:274-290). Fallible operations are
modelled with `Except`; the source body is a single `handlers.set(method,
handler)` with no duplicate check and no throw path, so every call returns
`.ok` of the updated table. -/
def registerHandler {H : Type} (handlers : List (String × H)) (method : String) (h : H) :
    Except String (List (String × H)) :=
  .ok (alSet handlers method h)

/-- Containment in a serialized POST body: an element of the array for a
batch body, the body itself otherwise. -/
def bodyContains (body e : Json) : Prop :=
  match body with
  | .arr xs => e ∈ xs
  | v => v = e

/-- A batch of two well-formed requests whose distinct ids — the number `1`
and the string `"1"` — stringify to the same `Map` key. -/
def c2Batch : List Json :=
  [.obj [("jsonrpc", .str "2.0"), ("id", .num 1), ("method", .str "m")],
   .obj [("jsonrpc", .str "2.0"), ("id", .str "1"), ("method", .str "m")]]

-- =============================================================================
-- Association list lemmas
-- =============================================================================

/-- Looking up the key just set yields the new value. -/
theorem alGet_alSet_self {α : Type} (m : List (String × α)) (k : String) (v : α) :
    alGet (alSet m k v) k = some v := by
  induction m with
  | nil => simp [alSet, alGet]
  | cons kv rest ih =>
      obtain ⟨k', v'⟩ := kv
      by_cases h : k' = k <;> simp [alSet, alGet, h, ih]

/-- Erasure produces a sublist. -/
theorem alErase_sublist {α : Type} (m : List (String × α)) (k : String) :
    List.Sublist (alErase m k) m := by
  induction m with
  | nil => simp [alErase]
  | cons kv rest ih =>
      obtain ⟨k', v'⟩ := kv
      by_cases h : k' = k
      · rw [alErase, if_pos h]
        exact List.sublist_cons_self (k', v') rest
      · rw [alErase, if_neg h]
        exact ih.cons₂ (k', v')

/-- Key membership after `alSet`. -/
theorem mem_keys_alSet {α : Type} (m : List (String × α)) (k : String) (v : α) (x : String) :
    x ∈ (alSet m k v).map Prod.fst ↔ x ∈ m.map Prod.fst ∨ x = k := by
  induction m with
  | nil => simp [alSet]
  | cons kv rest ih =>
      obtain ⟨k', v'⟩ := kv
      by_cases h : k' = k
      · subst h; by_cases hx : x = k' <;> simp [alSet, hx]
      · simp [alSet, h, ih]; tauto

/-- `alSet` preserves distinctness of keys. -/
theorem keys_nodup_alSet {α : Type} (m : List (String × α)) (k : String) (v : α)
    (h : (m.map Prod.fst).Nodup) : ((alSet m k v).map Prod.fst).Nodup := by
  induction m with
  | nil => simp [alSet]
  | cons kv rest ih =>
      obtain ⟨k', v'⟩ := kv
      simp only [List.map_cons, List.nodup_cons] at h
      by_cases hk : k' = k
      · subst hk
        simpa [alSet] using h
      · simp only [alSet, hk, if_false, List.map_cons, List.nodup_cons]
        refine ⟨?_, ih h.2⟩
        rw [mem_keys_alSet]
        rintro (hmem | rfl)
        · exact h.1 hmem
        · exact hk rfl

/-- A key absent from the list looks up to `none`. -/
theorem alGet_eq_none_of_not_mem {α : Type} (m : List (String × α)) (k : String)
    (h : k ∉ m.map Prod.fst) : alGet m k = none := by
  induction m with
  | nil => simp [alGet]
  | cons kv rest ih =>
      obtain ⟨k', v'⟩ := kv
      simp only [List.map_cons, List.mem_cons] at h
      push_neg at h
      simp [alGet, Ne.symm h.1, ih h.2]

/-- With distinct keys, erasing a key removes it from the lookup. -/
theorem alGet_alErase_self {α : Type} (m : List (String × α)) (k : String)
    (h : (m.map Prod.fst).Nodup) : alGet (alErase m k) k = none := by
  induction m with
  | nil => simp [alErase, alGet]
  | cons kv rest ih =>
      obtain ⟨k', v'⟩ := kv
      simp only [List.map_cons, List.nodup_cons] at h
      by_cases hk : k' = k
      · subst hk
        simpa [alErase] using alGet_eq_none_of_not_mem rest k' h.1
      · simp [alErase, alGet, hk, ih h.2]

/-- Entries with a different key survive `alErase`. -/
theorem mem_alErase_of_ne {α : Type} {m : List (String × α)} {k : String} {v : α}
    (hmem : (k, v) ∈ m) {k' : String} (hne : k ≠ k') : (k, v) ∈ alErase m k' := by
  induction m with
  | nil => simp at hmem
  | cons kv rest ih =>
      obtain ⟨k₀, v₀⟩ := kv
      rcases List.mem_cons.mp hmem with heq | hmem'
      · obtain ⟨rfl, rfl⟩ := Prod.mk.injEq .. ▸ heq
        simp [alErase, hne]
      · by_cases h0 : k₀ = k'
        · simpa [alErase, h0] using hmem'
        · simp [alErase, h0, ih hmem']

/-- Entries survive a fold of erasures over keys not their own. -/
theorem mem_foldl_alErase {α : Type} :
    ∀ (ks : List String) (m : List (String × α)) (k : String) (v : α),
      (k, v) ∈ m → k ∉ ks → (k, v) ∈ ks.foldl alErase m
  | [], _, _, _, hmem, _ => hmem
  | k' :: ks, m, k, v, hmem, hnot => by
      have hne : k ≠ k' := fun h => hnot (h ▸ List.mem_cons_self k' ks)
      have hnot' : k ∉ ks := fun h => hnot (List.mem_cons_of_mem _ h)
      simpa [List.foldl_cons] using
        mem_foldl_alErase ks (alErase m k') k v (mem_alErase_of_ne hmem hne) hnot'

/-- Setting a fresh key appends the entry. -/
theorem alSet_append_of_not_mem {α : Type} (m : List (String × α)) (k : String) (v : α)
    (h : k ∉ m.map Prod.fst) : alSet m k v = m ++ [(k, v)] := by
  induction m with
  | nil => simp [alSet]
  | cons kv rest ih =>
      obtain ⟨k', v'⟩ := kv
      simp only [List.map_cons, List.mem_cons] at h
      push_neg at h
      simp [alSet, Ne.symm h.1, ih h.2]

/-- Folding `alSet` over entries with pairwise-distinct fresh keys appends
them in order. -/
theorem foldl_alSet_eq_append {α β : Type} (key : β → String) (val : β → α) :
    ∀ (xs : List β) (acc : List (String × α)),
      (∀ x ∈ xs, key x ∉ acc.map Prod.fst) →
      (xs.map key).Nodup →
      xs.foldl (fun m x => alSet m (key x) (val x)) acc =
        acc ++ xs.map (fun x => (key x, val x))
  | [], acc, _, _ => by simp
  | x :: xs, acc, hfresh, hnodup => by
      have hx : key x ∉ acc.map Prod.fst := hfresh x (List.mem_cons_self x xs)
      have hstep : alSet acc (key x) (val x) = acc ++ [(key x, val x)] :=
        alSet_append_of_not_mem acc (key x) (val x) hx
      simp only [List.map_cons, List.nodup_cons] at hnodup
      have hfresh' : ∀ y ∈ xs, key y ∉ (acc ++ [(key x, val x)]).map Prod.fst := by
        intro y hy
        simp only [List.map_append, List.mem_append, List.map_cons, List.map_nil,
          List.mem_singleton]
        rintro (hmem | heq)
        · exact hfresh y (List.mem_cons_of_mem _ hy) hmem
        · exact hnodup.1 (heq ▸ List.mem_map_of_mem key hy)
      calc (x :: xs).foldl (fun m y => alSet m (key y) (val y)) acc
          = xs.foldl (fun m y => alSet m (key y) (val y)) (acc ++ [(key x, val x)]) := by
            simp [List.foldl_cons, hstep]
        _ = (acc ++ [(key x, val x)]) ++ xs.map (fun y => (key y, val y)) :=
            foldl_alSet_eq_append key val xs _ hfresh' hnodup.2
        _ = acc ++ (x :: xs).map (fun y => (key y, val y)) := by simp

-- =============================================================================
-- Dotted-subject segment lemmas
-- =============================================================================

/-- Cancellation of the first dot-separated segment: two dot-free segments
followed by a dot and a tail coincide exactly when the segments and tails
coincide. -/
theorem appendDotCancel {a c : List Char} (ha : '.' ∉ a) (hc : '.' ∉ c) :
    ∀ {b d : List Char}, a ++ '.' :: b = c ++ '.' :: d → a = c ∧ b = d := by
  induction a generalizing c with
  | nil =>
      intro b d h
      cases c with
      | nil => simpa using h
      | cons y cs =>
          simp only [List.nil_append, List.cons_append, List.cons.injEq] at h
          exact absurd (h.1 ▸ List.mem_cons_self y cs) hc
  | cons x as ih =>
      intro b d h
      cases c with
      | nil =>
          simp only [List.cons_append, List.nil_append, List.cons.injEq] at h
          exact absurd (h.1 ▸ List.mem_cons_self x as) ha
      | cons y cs =>
          simp only [List.cons_append, List.cons.injEq] at h
          obtain ⟨rfl, h2⟩ := h
          have ha' : '.' ∉ as := fun hm => ha (List.mem_cons_of_mem _ hm)
          have hc' : '.' ∉ cs := fun hm => hc (List.mem_cons_of_mem _ hm)
          obtain ⟨rfl, hbd⟩ := ih ha' hc' h2
          exact ⟨rfl, hbd⟩

/-- Character data of a request-scoped subject. -/
theorem requestScopedSubject_data (suffix : String) (p : RequestScopeParams) :
    (createRequestScopedTopicSubject suffix p).data =
      'm' :: 'c' :: 'p' :: '.' ::
        (p.sessionId.data ++ '.' :: (p.requestId.data ++ '.' :: suffix.data)) := by
  simp [createRequestScopedTopicSubject, String.data_append]

/-- Character data of a session-scoped subject. -/
theorem sessionScopedSubject_data (suffix : String) (p : SessionScopeParams) :
    (createSessionScopedTopicSubject suffix p).data =
      'm' :: 'c' :: 'p' :: '.' ::
        (p.sessionId.data ++ '.' :: ('b' :: 'g' :: '.' :: suffix.data)) := by
  simp [createSessionScopedTopicSubject, String.data_append]

/-- Equal request-scoped subjects with dot-free parameters force equal
parameters and equal suffixes. -/
theorem requestScoped_eq_cancel {suffix₁ suffix₂ : String} {p q : RequestScopeParams}
    (hps : '.' ∉ p.sessionId.data) (hqs : '.' ∉ q.sessionId.data)
    (hpr : '.' ∉ p.requestId.data) (hqr : '.' ∉ q.requestId.data)
    (h : createRequestScopedTopicSubject suffix₁ p = createRequestScopedTopicSubject suffix₂ q) :
    p.sessionId = q.sessionId ∧ p.requestId = q.requestId ∧ suffix₁ = suffix₂ := by
  have hd := congrArg String.data h
  rw [requestScopedSubject_data, requestScopedSubject_data] at hd
  simp only [List.cons.injEq, true_and] at hd
  obtain ⟨hsess, hrest⟩ := appendDotCancel hps hqs hd
  obtain ⟨hreq, hsuf⟩ := appendDotCancel hpr hqr hrest
  exact ⟨String.ext hsess, String.ext hreq, String.ext hsuf⟩

/-- A request-scoped subject with a dot-free request id other than `"bg"`
never equals a session-scoped subject with a dot-free session id. -/
theorem requestScoped_ne_sessionScoped {suffix₁ suffix₂ : String} {p : RequestScopeParams}
    {q : SessionScopeParams}
    (hps : '.' ∉ p.sessionId.data) (hqs : '.' ∉ q.sessionId.data)
    (hpr : '.' ∉ p.requestId.data) (hbg : p.requestId ≠ "bg") :
    createRequestScopedTopicSubject suffix₁ p ≠ createSessionScopedTopicSubject suffix₂ q := by
  intro h
  have hd := congrArg String.data h
  rw [requestScopedSubject_data, sessionScopedSubject_data] at hd
  simp only [List.cons.injEq, true_and] at hd
  obtain ⟨_, hrest⟩ := appendDotCancel hps hqs hd
  have hbgfree : '.' ∉ ['b', 'g'] := by decide
  obtain ⟨hreq, _⟩ := appendDotCancel hpr hbgfree hrest
  exact hbg (String.ext hreq)

-- =============================================================================
-- Claim C1 — topic subject injectivity and cross-family separation
-- =============================================================================

/-- C1 counterexample: the claim that the topic constructors are injective
and never collide across families is false as stated. The request id `"bg"`
makes `RequestOutbound` collide with the session-scoped `BackgroundOutbound`
on the very same subject string, and a session id containing a dot makes the
request-scoped constructor non-injective. -/
theorem C1_counterexample :
    RequestOutboundSubject ⟨"s", "bg"⟩ = BackgroundOutboundSubject ⟨"s"⟩ ∧
    RequestInboundSubject ⟨"a.b", "c"⟩ = RequestInboundSubject ⟨"a", "b.c"⟩ ∧
    (⟨"a.b", "c"⟩ : RequestScopeParams) ≠ (⟨"a", "b.c"⟩ : RequestScopeParams) := by
  refine ⟨rfl, rfl, ?_⟩
  decide

/-- C1 (amended): provided session ids and request ids contain no `'.'`
character and no request id equals `"bg"`, each of the four topic
constructors of topics.ts is injective in its parameters, and no
request-scoped subject equals a session-scoped subject. -/
theorem C1_topics_injective_and_separated
    (s₁ s₂ r₁ r₂ : String)
    (hs₁ : '.' ∉ s₁.data) (hs₂ : '.' ∉ s₂.data)
    (hr₁ : '.' ∉ r₁.data) (hr₂ : '.' ∉ r₂.data)
    (hbg₁ : r₁ ≠ "bg") :
    (RequestInboundSubject ⟨s₁, r₁⟩ = RequestInboundSubject ⟨s₂, r₂⟩ → s₁ = s₂ ∧ r₁ = r₂) ∧
    (RequestOutboundSubject ⟨s₁, r₁⟩ = RequestOutboundSubject ⟨s₂, r₂⟩ → s₁ = s₂ ∧ r₁ = r₂) ∧
    (BackgroundInboundSubject ⟨s₁⟩ = BackgroundInboundSubject ⟨s₂⟩ → s₁ = s₂) ∧
    (BackgroundOutboundSubject ⟨s₁⟩ = BackgroundOutboundSubject ⟨s₂⟩ → s₁ = s₂) ∧
    RequestInboundSubject ⟨s₁, r₁⟩ ≠ BackgroundInboundSubject ⟨s₂⟩ ∧
    RequestInboundSubject ⟨s₁, r₁⟩ ≠ BackgroundOutboundSubject ⟨s₂⟩ ∧
    RequestOutboundSubject ⟨s₁, r₁⟩ ≠ BackgroundInboundSubject ⟨s₂⟩ ∧
    RequestOutboundSubject ⟨s₁, r₁⟩ ≠ BackgroundOutboundSubject ⟨s₂⟩ := by
  refine ⟨?_, ?_, ?_, ?_, ?_, ?_, ?_, ?_⟩
  · intro h
    obtain ⟨h1, h2, _⟩ := requestScoped_eq_cancel hs₁ hs₂ hr₁ hr₂ h
    exact ⟨h1, h2⟩
  · intro h
    obtain ⟨h1, h2, _⟩ := requestScoped_eq_cancel hs₁ hs₂ hr₁ hr₂ h
    exact ⟨h1, h2⟩
  · intro h
    have hd := congrArg String.data h
    simp only [BackgroundInboundSubject] at hd
    rw [sessionScopedSubject_data, sessionScopedSubject_data] at hd
    simp only [List.cons.injEq, true_and] at hd
    exact String.ext (appendDotCancel hs₁ hs₂ hd).1
  · intro h
    have hd := congrArg String.data h
    simp only [BackgroundOutboundSubject] at hd
    rw [sessionScopedSubject_data, sessionScopedSubject_data] at hd
    simp only [List.cons.injEq, true_and] at hd
    exact String.ext (appendDotCancel hs₁ hs₂ hd).1
  · exact requestScoped_ne_sessionScoped hs₁ hs₂ hr₁ hbg₁
  · exact requestScoped_ne_sessionScoped hs₁ hs₂ hr₁ hbg₁
  · exact requestScoped_ne_sessionScoped hs₁ hs₂ hr₁ hbg₁
  · exact requestScoped_ne_sessionScoped hs₁ hs₂ hr₁ hbg₁

/-- C1 witness: the amended theorem applied at concrete dot-free ids shows a
request-scoped subject differing from the background subject. -/
theorem C1_witness :
    RequestOutboundSubject ⟨"s1", "r1"⟩ ≠ BackgroundOutboundSubject ⟨"s2"⟩ :=
  (C1_topics_injective_and_separated "s1" "s2" "r1" "r2"
    (by decide) (by decide) (by decide) (by decide) (by decide)).2.2.2.2.2.2.2

-- =============================================================================
-- Claim C4 — default response-mode strategy
-- =============================================================================

/-- C4: the default response-mode policy returns `sse` exactly when some
message of the list is a JSON-RPC request whose method is `tools/call`,
`sampling/createMessage` or `prompts/get`, or a request whose
`params._meta.progressToken` is defined; on every other list it returns
`json`. -/
theorem C4_default_mode_iff (messages : List Json) :
    (defaultResponseModeStrategy messages = .sse ↔
      ∃ msg ∈ messages, isJSONRPCRequest msg = true ∧
        (msgMethod msg = some "tools/call" ∨ msgMethod msg = some "sampling/createMessage" ∨
         msgMethod msg = some "prompts/get" ∨ hasProgressToken msg = true)) ∧
    (defaultResponseModeStrategy messages = .json ↔
      ¬ ∃ msg ∈ messages, isJSONRPCRequest msg = true ∧
        (msgMethod msg = some "tools/call" ∨ msgMethod msg = some "sampling/createMessage" ∨
         msgMethod msg = some "prompts/get" ∨ hasProgressToken msg = true)) := by
  have hcond : ∀ msg : Json, requestWantsStreaming msg = true ↔
      (msgMethod msg = some "tools/call" ∨ msgMethod msg = some "sampling/createMessage" ∨
       msgMethod msg = some "prompts/get" ∨ hasProgressToken msg = true) := by
    intro msg
    unfold requestWantsStreaming STREAMING_METHODS
    cases h : msgMethod msg with
    | none => simp [h]
    | some m => simp [h]; tauto
  have main : ∀ msgs : List Json, defaultResponseModeStrategy msgs = .sse ↔
      ∃ msg ∈ msgs, isJSONRPCRequest msg = true ∧ requestWantsStreaming msg = true := by
    intro msgs
    induction msgs with
    | nil => simp [defaultResponseModeStrategy]
    | cons m rest ih =>
        by_cases h : (isJSONRPCRequest m && requestWantsStreaming m) = true
        · obtain ⟨h1, h2⟩ := Bool.and_eq_true_iff.mp h
          rw [show defaultResponseModeStrategy (m :: rest) = .sse by
            simp [defaultResponseModeStrategy, h]]
          exact iff_of_true rfl ⟨m, List.mem_cons_self m rest, h1, h2⟩
        · have hnot : ¬ (isJSONRPCRequest m = true ∧ requestWantsStreaming m = true) := by
            rw [← Bool.and_eq_true_iff]; exact h
          rw [show defaultResponseModeStrategy (m :: rest) = defaultResponseModeStrategy rest by
            simp [defaultResponseModeStrategy, h]]
          rw [ih]
          constructor
          · rintro ⟨x, hx, hP⟩
            exact ⟨x, List.mem_cons_of_mem _ hx, hP⟩
          · rintro ⟨x, hx, hP⟩
            rcases List.mem_cons.mp hx with rfl | hx'
            · exact absurd hP hnot
            · exact ⟨x, hx', hP⟩
  have main' : defaultResponseModeStrategy messages = .sse ↔
      ∃ msg ∈ messages, isJSONRPCRequest msg = true ∧
        (msgMethod msg = some "tools/call" ∨ msgMethod msg = some "sampling/createMessage" ∨
         msgMethod msg = some "prompts/get" ∨ hasProgressToken msg = true) := by
    rw [main messages]
    exact exists_congr fun msg =>
      and_congr_right fun _ => and_congr_right fun _ => hcond msg
  refine ⟨main', ?_⟩
  rw [← main']
  cases h : defaultResponseModeStrategy messages <;> simp

-- =============================================================================
-- Claim C5 — transport outbound routing
-- =============================================================================

/-- C5 counterexample: the claim that a message sent with both
`options.sessionId` and `options.requestId` present is published on
`request-outbound(sessionId, requestId)` is false: the source tests
`options?.requestId ? … : undefined`, so the present but empty request id
`""` routes this response to the session-scoped background topic instead. -/
theorem C5_counterexample :
    transportSend (.obj [("jsonrpc", .str "2.0"), ("id", .num 1), ("result", .obj [])])
        (some { sessionId := some "s", requestId := some "" }) =
      .published (BackgroundOutboundSubject ⟨"s"⟩)
        (.obj [("jsonrpc", .str "2.0"), ("id", .num 1), ("result", .obj [])]) ∧
    BackgroundOutboundSubject ⟨"s"⟩ ≠ RequestOutboundSubject ⟨"s", ""⟩ := by
  constructor
  · rfl
  · decide

/-- C5 (amended): `send` routing with JavaScript truthiness — a missing or
empty `sessionId` throws the configuration error and publishes nothing; a
present nonempty `requestId` publishes on `request-outbound(sessionId,
requestId)`; otherwise a JSON-RPC request is published on
`background-inbound(sessionId)` and any other message on
`background-outbound(sessionId)`. -/
theorem C5_send_routing (msg : Json) (opts : Option TransportSendOptions) :
    (opts.bind (·.sessionId) = none ∨ opts.bind (·.sessionId) = some "" →
      transportSend msg opts = .thrown "Cannot send message: Missing sessionId in options") ∧
    (∀ sid rid, opts.bind (·.sessionId) = some sid → sid ≠ "" →
      opts.bind (·.requestId) = some rid → rid ≠ "" →
      transportSend msg opts = .published (RequestOutboundSubject ⟨sid, rid⟩) msg) ∧
    (∀ sid, opts.bind (·.sessionId) = some sid → sid ≠ "" →
      (opts.bind (·.requestId) = none ∨ opts.bind (·.requestId) = some "") →
      (isJSONRPCRequest msg = true →
        transportSend msg opts = .published (BackgroundInboundSubject ⟨sid⟩) msg) ∧
      (isJSONRPCRequest msg = false →
        transportSend msg opts = .published (BackgroundOutboundSubject ⟨sid⟩) msg)) := by
  refine ⟨?_, ?_, ?_⟩
  · rintro (h | h) <;> simp [transportSend, h]
  · intro sid rid hs hsne hr hrne
    simp [transportSend, hs, hsne, hr, hrne]
  · intro sid hs hsne hr
    rcases hr with h | h <;>
      exact ⟨fun hreq => by simp [transportSend, hs, hsne, h, hreq],
             fun hreq => by simp [transportSend, hs, hsne, h, hreq]⟩

/-- C5 witness: the amended routing applied to a concrete response with a
nonempty session and request id. -/
theorem C5_witness :
    transportSend (.obj [("jsonrpc", .str "2.0"), ("id", .num 2), ("result", .obj [])])
        (some { sessionId := some "sess", requestId := some "42" }) =
      .published (RequestOutboundSubject ⟨"sess", "42"⟩)
        (.obj [("jsonrpc", .str "2.0"), ("id", .num 2), ("result", .obj [])]) :=
  (C5_send_routing _ _).2.1 "sess" "42" rfl (by decide) rfl (by decide)

-- =============================================================================
-- Claim C6 — cancellation suppresses the response
-- =============================================================================

/-- C6: when a `notifications/cancelled` for the request's id trips the abort
handle before the handler settles, `processRequest` emits no response and no
error envelope for that request, and the incoming-request table no longer
holds its key afterwards. -/
theorem C6_cancelled_request_no_response (connectionId : String) (sessionId : Option String)
    (requestId : RId) (outcome : HandlerOutcome) (table : List (String × Bool))
    (h : (table.map Prod.fst).Nodup) :
    (processRequestRun connectionId sessionId requestId true outcome table).1 = [] ∧
    alGet (processRequestRun connectionId sessionId requestId true outcome table).2
      (mapRequestKey connectionId sessionId requestId) = none := by
  constructor
  · simp [processRequestRun]
  · have h0 : ((alSet table (mapRequestKey connectionId sessionId requestId) false).map
        Prod.fst).Nodup := keys_nodup_alSet table _ false h
    have h1 : ((alErase (alSet table (mapRequestKey connectionId sessionId requestId) false)
        (mapRequestKey connectionId sessionId requestId)).map Prod.fst).Nodup :=
      h0.sublist ((alErase_sublist _ _).map Prod.fst)
    simpa [processRequestRun] using
      alGet_alErase_self _ (mapRequestKey connectionId sessionId requestId) h1

/-- C6 witness: a concrete cancelled request emits nothing and leaves no
table entry. -/
theorem C6_witness :
    (processRequestRun "c" (some "s") (.str "r1") true (.success .null) []).1 = [] ∧
    alGet (processRequestRun "c" (some "s") (.str "r1") true (.success .null) []).2
      (mapRequestKey "c" (some "s") (.str "r1")) = none :=
  C6_cancelled_request_no_response "c" (some "s") (.str "r1") (.success .null) [] (by decide)

-- =============================================================================
-- Claim C7 — external abort leaks the progress-index entry
-- =============================================================================

/-- C7: at the failing input — connection `conn`, session `sess`, request id
`req-1`, progress token `tok-1` registered via `params._meta.progressToken`
with an `onProgress` callback — the external-abort listener rejects the
future with the internal error "Request aborted by external signal" and
removes the pending-request entry, but the progress-index entry survives:
`clearRequest` (connection.ts:844) deletes from `progressTokenIndex` by the
request key `conn:sess:req-1`, while the entry is stored under the progress
key `conn:sess:tok-1`. The claim's required cleanup of the progress index
does not happen. -/
theorem C7_progress_index_leak :
    (onExternalAbort
        (registerPendingRequest ⟨[], []⟩ "conn" (some "sess") (.str "req-1") true
          (some (.str "tok-1")))
        (mapRequestKey "conn" (some "sess") (.str "req-1"))).rejection =
      some (INTERNAL_ERROR, "Request aborted by external signal") ∧
    alGet (onExternalAbort
        (registerPendingRequest ⟨[], []⟩ "conn" (some "sess") (.str "req-1") true
          (some (.str "tok-1")))
        (mapRequestKey "conn" (some "sess") (.str "req-1"))).state.pendingRequests
      (mapRequestKey "conn" (some "sess") (.str "req-1")) = none ∧
    alGet (onExternalAbort
        (registerPendingRequest ⟨[], []⟩ "conn" (some "sess") (.str "req-1") true
          (some (.str "tok-1")))
        (mapRequestKey "conn" (some "sess") (.str "req-1"))).state.progressTokenIndex
      (mapProgressKey "conn" (some "sess") (.str "tok-1")) =
      some (mapRequestKey "conn" (some "sess") (.str "req-1")) := by
  refine ⟨rfl, rfl, rfl⟩

-- =============================================================================
-- Claim C8 — duplicate handler registration
-- =============================================================================

/-- C8 counterexample: the claim that a second `registerHandler` for the
same method is an error is false — connection.ts:274-290 is a bare
`handlers.set`, so the second call succeeds and replaces the first handler
(here handlers are numbered 1 and 2). -/
theorem C8_counterexample :
    registerHandler ([] : List (String × Nat)) "tools/call" 1 = .ok [("tools/call", 1)] ∧
    registerHandler [("tools/call", (1 : Nat))] "tools/call" 2 = .ok [("tools/call", 2)] := by
  constructor <;> rfl

/-- C8 (amended): after `registerHandler(m, h1)`, a second
`registerHandler(m, h2)` succeeds and silently replaces `h1`: the table then
maps `m` to `h2`. -/
theorem C8_register_silently_replaces {H : Type} (handlers : List (String × H))
    (m : String) (h1 h2 : H) :
    ∃ t1 t2, registerHandler handlers m h1 = .ok t1 ∧ registerHandler t1 m h2 = .ok t2 ∧
      alGet t2 m = some h2 :=
  ⟨_, _, rfl, rfl, alGet_alSet_self _ m h2⟩

-- =============================================================================
-- Claim C9 — default endpoint path
-- =============================================================================

/-- C9 counterexample: the claim that the endpoint defaults to `/mcp` is
false — `DEFAULT_ENDPOINT` (transport.ts:80) is `"/"`, so a transport
constructed without `httpServer.endpoint` serves MCP at `/` and returns 404
for a POST to `/mcp`. -/
theorem C9_counterexample :
    resolveEndpoint none = "/" ∧
    routeRequest (resolveEndpoint none) true "/mcp" "POST" = .notFound 404 := by
  constructor <;> rfl

/-- C9 (amended): without an explicit `httpServer.endpoint` the MCP endpoint
path defaults to `/`: POST, GET, DELETE and OPTIONS on `/` are handled as
MCP traffic, and any other path besides `/health` and `/readiness`
(including `/mcp`) returns 404. -/
theorem C9_endpoint_defaults_to_root (listening : Bool) (path httpMethod : String)
    (h1 : path ≠ "/") (h2 : path ≠ "/health") (h3 : path ≠ "/readiness") :
    resolveEndpoint none = "/" ∧
    routeRequest (resolveEndpoint none) listening "/" "POST" = .mcpPost ∧
    routeRequest (resolveEndpoint none) listening "/" "GET" = .mcpGet ∧
    routeRequest (resolveEndpoint none) listening "/" "DELETE" = .mcpDelete ∧
    routeRequest (resolveEndpoint none) listening "/" "OPTIONS" = .optionsNoContent 204 ∧
    routeRequest (resolveEndpoint none) listening path httpMethod = .notFound 404 := by
  refine ⟨rfl, rfl, rfl, rfl, rfl, ?_⟩
  simp [routeRequest, resolveEndpoint, DEFAULT_ENDPOINT, h1, h2, h3]

/-- C9 witness: with the default endpoint, a GET to `/mcp` is 404. -/
theorem C9_witness :
    routeRequest (resolveEndpoint none) true "/mcp" "GET" = .notFound 404 :=
  (C9_endpoint_defaults_to_root true "/mcp" "GET" (by decide) (by decide) (by decide)).2.2.2.2.2

-- =============================================================================
-- Claim C10 — no JSON-RPC shape validation on syntactically valid bodies
-- =============================================================================

/-- A value that is not an object with a `method` field never passes the
request guard. -/
theorem isJSONRPCRequest_false_of_no_method (m : Json) (h : isObjWithMethod m = false) :
    isJSONRPCRequest m = false := by
  cases m with
  | obj fields =>
      simp only [isObjWithMethod, isObject, Bool.true_and] at h
      rcases hm : getField (.obj fields) "method" with _ | v
      · simp [isJSONRPCRequest, hm]
      · rw [hm] at h
        simp at h
  | null => rfl
  | bool b => rfl
  | num n => rfl
  | str s => rfl
  | arr xs => rfl

/-- C10: a syntactically valid POST body none of whose messages is an object
with a `method` field (for instance the number 42, a string, or an array of
such values) is classified as containing no requests; the POST takes the
notifications-only path and yields 202 with an empty body, never an
invalid-request (−32600) envelope. -/
theorem C10_no_shape_validation (accept sessionId : String) (delivered : String → List Json)
    (body : Json)
    (hacc : (strIncludes accept "application/json" || strIncludes accept "*/*") = true ∨
            (strIncludes accept "text/event-stream" || strIncludes accept "*/*") = true)
    (hshape : ∀ m ∈ messagesOfBody body, isObjWithMethod m = false) :
    (messagesOfBody body).filter isJSONRPCRequest = [] ∧
    handlePost accept sessionId (some body) delivered =
      .notificationsOnly 202
        ((messagesOfBody body).map (fun m => (BackgroundOutboundSubject ⟨sessionId⟩, m))) := by
  have hgate : (!(strIncludes accept "application/json" || strIncludes accept "*/*") &&
      !(strIncludes accept "text/event-stream" || strIncludes accept "*/*")) = false := by
    rcases hacc with h | h <;> simp [h]
  have hfilter : (messagesOfBody body).filter isJSONRPCRequest = [] :=
    List.filter_eq_nil_iff.mpr fun m hm => by
      simp [isJSONRPCRequest_false_of_no_method m (hshape m hm)]
  refine ⟨hfilter, ?_⟩
  simp only [handlePost, hgate, hfilter]
  simp

/-- C10 witness: the body `42` with a JSON Accept header yields 202 and one
audit publish of the message on the background-outbound subject. -/
theorem C10_witness :
    ([Json.num 42].filter isJSONRPCRequest = [] ∧
     handlePost "application/json" "sess" (some (.num 42)) (fun _ => []) =
       .notificationsOnly 202 [(BackgroundOutboundSubject ⟨"sess"⟩, .num 42)]) :=
  C10_no_shape_validation "application/json" "sess" (fun _ => []) (.num 42)
    (Or.inl (by decide)) (by decide)

-- =============================================================================
-- Claim C3 — POST with body `[]`
-- =============================================================================

/-- C3 counterexample: the claim that a POST whose body is the empty JSON
array `[]` receives 400 is false — the body parses, yields zero messages and
zero requests, and `handlePost` takes the notifications-only path: the
status is 202, not 400. -/
theorem C3_counterexample :
    (handlePost "application/json" "sess" (some (.arr [])) (fun _ => [])).status = 202 ∧
    (handlePost "application/json" "sess" (some (.arr [])) (fun _ => [])).status ≠ 400 := by
  have h : (handlePost "application/json" "sess" (some (.arr [])) (fun _ => [])).status
      = 202 := rfl
  exact ⟨h, by rw [h]; decide⟩

/-- C3 (amended): a POST whose body is the empty JSON array `[]`, for every
session and every Accept header that passes negotiation, is treated as a
notifications-only batch: 202 with an empty body and no broker publish. -/
theorem C3_empty_batch_202 (accept sessionId : String) (delivered : String → List Json)
    (hacc : (strIncludes accept "application/json" || strIncludes accept "*/*") = true ∨
            (strIncludes accept "text/event-stream" || strIncludes accept "*/*") = true) :
    handlePost accept sessionId (some (.arr [])) delivered = .notificationsOnly 202 [] := by
  have hgate : (!(strIncludes accept "application/json" || strIncludes accept "*/*") &&
      !(strIncludes accept "text/event-stream" || strIncludes accept "*/*")) = false := by
    rcases hacc with h | h <;> simp [h]
  simp only [handlePost, hgate, messagesOfBody]
  simp

/-- C3 witness: the amended statement at a concrete Accept header. -/
theorem C3_witness :
    handlePost "application/json" "s1" (some (.arr [])) (fun _ => []) =
      .notificationsOnly 202 [] :=
  C3_empty_batch_202 "application/json" "s1" (fun _ => []) (Or.inl (by decide))

-- =============================================================================
-- Claim C2 — JSON-mode response timeout
-- =============================================================================

/-- A request whose subscription yields no terminal payload before the
deadline contributes its timeout error to the response array, provided the
stringified ids of the batch are pairwise distinct. -/
theorem mem_jsonResponses_timeout (requests : List Json) (delivered : String → List Json)
    (r : Json)
    (hnodup : (requests.map fun q => (reqId q).toStringJS).Nodup)
    (hmem : r ∈ requests)
    (hpending : firstTerminal (delivered (reqId r).toStringJS) = none) :
    mkTimeoutError (reqId r) ∈ jsonResponses requests delivered := by
  have hterm : jsonTermOf delivered r = none := hpending
  have hallDone : (requests.all fun q => (jsonTermOf delivered q).isSome) = false := by
    refine Bool.eq_false_iff.mpr fun hall => ?_
    have h := List.all_eq_true.mp hall r hmem
    rw [hterm] at h
    simp at h
  have hpend0 : jsonPending0 requests =
      requests.map fun q => ((reqId q).toStringJS, reqId q) := by
    have h := foldl_alSet_eq_append (fun q : Json => (reqId q).toStringJS) reqId requests []
      (by simp) hnodup
    simpa [jsonPending0] using h
  have hmem0 : ((reqId r).toStringJS, reqId r) ∈
      requests.map fun q => ((reqId q).toStringJS, reqId q) :=
    List.mem_map_of_mem _ hmem
  have hnotdone : (reqId r).toStringJS ∉ jsonDoneKeys requests delivered := by
    intro hk
    obtain ⟨q, hq, hkeq⟩ := List.mem_map.mp hk
    obtain ⟨hqmem, hqdone⟩ := List.mem_filter.mp hq
    have hkey : jsonTermOf delivered q = jsonTermOf delivered r := by
      unfold jsonTermOf
      rw [hkeq]
    rw [hkey, hterm] at hqdone
    simp at hqdone
  have hmemAfter : ((reqId r).toStringJS, reqId r) ∈
      (jsonDoneKeys requests delivered).foldl alErase (jsonPending0 requests) := by
    rw [hpend0]
    exact mem_foldl_alErase _ _ _ _ hmem0 hnotdone
  unfold jsonResponses
  simp only [hallDone, Bool.false_eq_true, if_false]
  exact List.mem_append_right _ (List.mem_map_of_mem _ hmemAfter)

/-- A single pending request produces exactly its timeout error. -/
theorem jsonResponses_single_pending (r : Json) (delivered : String → List Json)
    (hpending : firstTerminal (delivered (reqId r).toStringJS) = none) :
    jsonResponses [r] delivered = [mkTimeoutError (reqId r)] := by
  simp [jsonResponses, jsonPending0, jsonDoneKeys, jsonTermOf, hpending, alSet]

/-- C2 counterexample: the claim fails as stated when two requests' ids
stringify to the same `Map` key. In the batch with ids `1` (number) and
`"1"` (string) and no deliveries, both requests are still pending at the
deadline, yet the body carries a single timeout error whose id is the
string `"1"`; no error object with the number id `1` appears. -/
theorem C2_counterexample :
    (c2Batch.filter isJSONRPCRequest).length = 2 ∧
    (jsonModeResult c2Batch true (fun _ => [])).responses = [mkTimeoutError (.str "1")] ∧
    (∀ e ∈ (jsonModeResult c2Batch true (fun _ => [])).responses,
      ¬ getField e "id" = some (.num 1)) := by
  decide

/-- C2 (amended): in JSON response mode, when the response deadline elapses
with some request still pending, the result has status 200 and content type
`application/json`, and — provided the stringified ids of the batch's
requests are pairwise distinct — the body contains, for every request still
pending at the deadline, a JSON-RPC error object with that request's
original id, code −32603 (`INTERNAL_ERROR`) and message "Request timeout"
(the shape of `mkTimeoutError`). -/
theorem C2_timeout_errors (messages : List Json) (isBatch : Bool)
    (delivered : String → List Json) (r : Json)
    (hnodup : ((messages.filter isJSONRPCRequest).map fun q => (reqId q).toStringJS).Nodup)
    (hmem : r ∈ messages.filter isJSONRPCRequest)
    (hpending : firstTerminal (delivered (reqId r).toStringJS) = none)
    (hsingle : isBatch = false → (messages.filter isJSONRPCRequest).length ≤ 1) :
    (jsonModeResult messages isBatch delivered).status = 200 ∧
    (jsonModeResult messages isBatch delivered).contentType = "application/json" ∧
    mkTimeoutError (reqId r) ∈ (jsonModeResult messages isBatch delivered).responses ∧
    bodyContains (jsonModeResult messages isBatch delivered).body (mkTimeoutError (reqId r)) := by
  have hresp : mkTimeoutError (reqId r) ∈
      jsonResponses (messages.filter isJSONRPCRequest) delivered :=
    mem_jsonResponses_timeout _ delivered r hnodup hmem hpending
  refine ⟨rfl, rfl, hresp, ?_⟩
  cases hb : isBatch with
  | true => simpa [jsonModeResult, bodyContains] using hresp
  | false =>
      have hlen := hsingle hb
      have hlist : messages.filter isJSONRPCRequest = [r] := by
        cases hq : messages.filter isJSONRPCRequest with
        | nil => rw [hq] at hmem; simp at hmem
        | cons a l =>
            cases l with
            | nil =>
                rw [hq] at hmem
                have : r = a := by simpa using hmem
                rw [this]
            | cons b l2 =>
                rw [hq] at hlen
                simp at hlen
      simp [jsonModeResult, hb, hlist, jsonResponses_single_pending r delivered hpending,
        bodyContains, mkTimeoutError]

/-- C2 witness: a single pending request with id 7 yields a 200 JSON result
whose body is exactly its timeout error. -/
theorem C2_witness :
    (jsonModeResult [Json.obj [("jsonrpc", .str "2.0"), ("id", .num 7), ("method", .str "m")]]
        false (fun _ => [])).status = 200 ∧
    (jsonModeResult [Json.obj [("jsonrpc", .str "2.0"), ("id", .num 7), ("method", .str "m")]]
        false (fun _ => [])).contentType = "application/json" ∧
    mkTimeoutError (reqId (Json.obj [("jsonrpc", .str "2.0"), ("id", .num 7),
        ("method", .str "m")])) ∈
      (jsonModeResult [Json.obj [("jsonrpc", .str "2.0"), ("id", .num 7),
        ("method", .str "m")]] false (fun _ => [])).responses ∧
    bodyContains
      (jsonModeResult [Json.obj [("jsonrpc", .str "2.0"), ("id", .num 7),
        ("method", .str "m")]] false (fun _ => [])).body
      (mkTimeoutError (reqId (Json.obj [("jsonrpc", .str "2.0"), ("id", .num 7),
        ("method", .str "m")]))) :=
  C2_timeout_errors _ false (fun _ => []) _ (by decide) (by decide) (by decide)
    (fun _ => by decide)

end MCP
